import Mathlib

/-!
Verification development for the sseredis repository (an SSE-to-Redis bridge).

The definitions below are a shallow embedding of the Go source, chiefly the most
complete snapshot (the `universalHandler` program with `NewPubSubReceiver`,
`NewStreamReceiver`, `NewPubSubSender`, `NewStreamSender`, `subscriber` and
`publisher`).  Pure data flow is embedded as Lean functions; the background
listener goroutines and the writer loop are embedded as functions over explicit
lists of externally supplied events (broker deliveries, poll outcomes, select
arms), producing traces of their observable actions.  Broker and Go standard
library collaborators (Redis XREAD/XADD, `mime.ParseMediaType`, `json.Valid`)
are modelled at the granularity the program uses them, as noted at each
definition.
-/

namespace Sseredis

/-- The `message` struct: unit of data between broker listener and SSE writer.
Field `id` is the log entry identifier, `""` for ephemeral sources (Go zero
value); `source` is the channel or stream name; `text` the payload. -/
structure message where
  id : String
  source : String
  text : String
deriving DecidableEq, Repr

/-- A delivered Redis pub/sub event (`redis.Message`): channel name and payload. -/
structure PubSubEvt where
  channel : String
  payload : String
deriving DecidableEq, Repr

/-- Events affecting the receiver's inbound queue, as produced by a listener. -/
inductive QEv where
  | push (m : message)
  | closeQ
deriving DecidableEq, Repr

/-- The listener goroutine of `NewPubSubReceiver`: it repeatedly reads the
subscription channel; a `nil` event (`none`, the channel closed by the redis
client: the subscription reports closure) breaks the loop, after which the
inbound queue is closed; an event with empty payload is skipped (`continue`);
any other event is wrapped as a `message` (zero-value id) and pushed.  The
input list is the finite prefix of broker deliveries observed; an exhausted
list means the goroutine is still blocked reading (so no close happens). -/
def pubsubTrace : List (Option PubSubEvt) → List QEv
  | [] => []
  | none :: _ => [QEv.closeQ]
  | some evt :: rest =>
      if evt.payload = "" then pubsubTrace rest
      else QEv.push { id := "", source := evt.channel, text := evt.payload } :: pubsubTrace rest

/-- Number of queue-close actions in a listener trace. -/
def closeCount (evs : List QEv) : Nat :=
  (evs.filter fun e => match e with | QEv.closeQ => true | _ => false).length

/-- The three arms of the writer's `select`: a message read from the inbound
queue, the keep-alive timer elapsing, or the request context reporting client
disconnect. -/
inductive WEvent where
  | msg (m : message)
  | timeout
  | done
deriving DecidableEq, Repr

/-- Transport state of one streaming response: the chunks successfully written
so far, and an oracle of outcomes for the next `res.Write` calls (an exhausted
oracle means every further write succeeds; a `false` entry makes the
corresponding write fail, which the handler treats as terminal). -/
structure WState where
  out : List String
  oracle : List Bool
deriving DecidableEq, Repr

/-- One `res.Write` call: on success the chunk is appended, on failure nothing
is (the handler returns on the error either way, see the callers). -/
def writeOne (st : WState) (s : String) : WState × Bool :=
  match st.oracle with
  | [] => ({ st with out := st.out ++ [s] }, true)
  | b :: rest =>
      (if b then { out := st.out ++ [s], oracle := rest } else { st with oracle := rest }, b)

/-- A straight-line sequence of `res.Write` calls with early return on the
first failure, as in the message branch of the `subscriber` loop. -/
def writeAll (st : WState) : List String → WState × Bool
  | [] => (st, true)
  | c :: cs =>
      let p := writeOne st c
      if p.2 then writeAll p.1 cs else (p.1, false)

/-- Splitting a character list at every newline, keeping empty segments, as Go
`strings.Split(s, "\n")` does (stated over `List Char` so it computes by
structural recursion). -/
def splitNlChars : List Char → List (List Char)
  | [] => [[]]
  | c :: rest =>
      let r := splitNlChars rest
      if c = '\n' then [] :: r
      else (c :: r.headD []) :: r.tail

/-- Model of Go `strings.Split(s, "\n")`: the newline-delimited segments of a
string, empty segments included. -/
def splitNl (s : String) : List String :=
  (splitNlChars s.data).map fun cs => String.mk cs

/-- The chunks the `subscriber` loop writes for one dequeued message, one list
element per Go `res.Write` call: an id line when `msg.id != ""`, the event
line, one data line per `"\n"`-split hunk of the text, and the blank
terminator. -/
def msgChunks (m : message) : List String :=
  (if m.id ≠ "" then ["id: " ++ m.id ++ "\n"] else [])
    ++ ["event: " ++ m.source ++ "\n"]
    ++ ((splitNl m.text).map fun hunk => "data: " ++ hunk ++ "\n")
    ++ ["\n"]

/-- The Streaming state of the `subscriber` state machine: each iteration
flushes (not a write, not recorded) and waits on the select.  A message with
empty text is the end-of-stream sentinel: return.  Otherwise write the
message's chunks, returning on any write failure.  A timer event writes the
keep-alive comment.  A context-done event (client disconnect) returns at once
with no write.  The returned flag records whether the loop returned (an
exhausted event list means the handler is still blocked in the select). -/
def streamLoop (st : WState) : List WEvent → WState × Bool
  | [] => (st, false)
  | WEvent.done :: _ => (st, true)
  | WEvent.timeout :: rest =>
      let p := writeOne st (": keep-alive\n\n")
      if p.2 then streamLoop p.1 rest else (p.1, true)
  | WEvent.msg m :: rest =>
      if m.text = "" then (st, true)
      else
        let p := writeAll st (msgChunks m)
        if p.2 then streamLoop p.1 rest else (p.1, true)

/-- Reading the receiver's inbound queue from the writer's side: a pushed
message is received as is; once the listener has closed the queue, a channel
read yields Go's zero value for `message` (all fields empty), which the writer
recognises as the sentinel. -/
def queueRead : QEv → WEvent
  | QEv.push m => WEvent.msg m
  | QEv.closeQ => WEvent.msg { id := "", source := "", text := "" }

/-- Everything a client streaming an ephemeral source receives during the
Streaming state, given the listed broker deliveries: the pubsub listener's
queue trace is consumed by the writer over an infallible transport. -/
def pubsubClientOut (evts : List (Option PubSubEvt)) : List String :=
  (streamLoop { out := [], oracle := [] } ((pubsubTrace evts).map queueRead)).1.out

/-- One SSE event as the specification words it (written from the spec, for
comparison with the source-derived writer): an id line iff the id is
non-empty, an event line carrying the source name, a data line per
newline-delimited segment, a terminating blank line. -/
def specEventLines (m : message) : List String :=
  (if m.id = "" then [] else ["id: " ++ m.id ++ "\n"])
    ++ (("event: " ++ m.source ++ "\n")
      :: ((splitNl m.text).map fun s => "data: " ++ s ++ "\n"))
    ++ ["\n"]

/-- A Redis stream entry as the go-redis client returns it (`redis.XMessage`):
an `ID` and a field map.  The map is modelled as an association list in the
(arbitrary) order the Go `range` happens to produce, with distinct keys (the
spec leaves the field ordering unspecified).  Entry ids are modelled in the
plain-number form the spec's examples use (`"1"`, `"2"`, ...). -/
structure XMessage where
  ID : String
  Values : List (String × String)
deriving DecidableEq, Repr

/-- Numeric value of a stream id string, used to model Redis's id ordering for
plain-number ids (`"1"` < `"2"` < ...); a non-numeric string maps to 0.
(Stated over the character list so it computes by structural recursion.) -/
def idNum (s : String) : Nat :=
  if s.data ≠ [] ∧ s.data.all Char.isDigit then
    s.data.foldl (fun acc c => acc * 10 + (c.toNat - 48)) 0
  else 0

/-- Model of the blocking `XRADD`-log read `XREAD` as the listener invokes it:
given the current log (in ascending id order) and a cursor, Redis returns
exactly the entries whose id is strictly greater than the cursor. -/
def xread (logEntries : List XMessage) (cursor : String) : List XMessage :=
  logEntries.filter fun e => idNum cursor < idNum e.ID

/-- The arguments the listener passes to `client.XRead` each poll: a blocking
read bounded by a fixed 100 ms timeout (`Block: time.Duration(100) *
time.Millisecond`) on the receiver's stream, starting after `receiver.lastId`. -/
structure XReadArgs where
  blockMillis : Nat
  stream : String
  afterId : String
deriving DecidableEq, Repr

/-- Cursor initialisation in `NewStreamReceiver`: the `Last-Event-ID` header
value as `http.Header.Get` returns it (`""` when the header is absent),
replaced by `"0"` when empty. -/
def initLastId (lastId : String) : String :=
  if lastId = "" then "0" else lastId

/-- The text built for one stream entry: `key=value` lines joined by
newlines (`fmt.Sprintf` over the field map, `strings.Join(lines, "\n")`). -/
def entryText (e : XMessage) : String :=
  String.intercalate "\n" (e.Values.map fun kv => kv.1 ++ "=" ++ kv.2)

/-- The `message` pushed for one stream entry: the wad's stream name (the
receiver's source, since it reads a single stream), the entry's own id, and
the flattened field text. -/
def entryToMessage (source : String) (e : XMessage) : message :=
  { id := e.ID, source := source, text := entryText e }

/-- Mutable state of the stream listener goroutine: `receiver.lastId`. -/
structure LState where
  lastId : String
deriving DecidableEq, Repr

/-- Observable actions of the stream listener: pushing a message to the
inbound queue, assigning `receiver.lastId`, logging, closing the queue. -/
inductive LEv where
  | push (m : message)
  | setCursor (id : String)
  | logMsg (s : String)
  | closeQ
deriving DecidableEq, Repr

/-- Processing one returned batch entry-by-entry, in the order returned: each
entry is pushed, and only then is `receiver.lastId` assigned that entry's id. -/
def procBatch (source : String) (st : LState) : List XMessage → LState × List LEv
  | [] => (st, [])
  | e :: es =>
      let tail := procBatch source { lastId := e.ID } es
      (tail.1, LEv.push (entryToMessage source e) :: LEv.setCursor e.ID :: tail.2)

/-- One iteration's outcome of the listener's blocking read: the broker log is
available (the batch is then what `xread` returns past the cursor, possibly
nothing), or the 100 ms block expired with no data (`redis.Nil`), or a
non-timeout broker error. -/
inductive PollOutcome where
  | logAvail (logEntries : List XMessage)
  | timeout
  | brokerErr (e : String)
deriving DecidableEq, Repr

/-- The poll the listener issues from state `st`: fixed 100 ms block, the
receiver's source stream, starting after the current cursor. -/
def pollArgs (source : String) (st : LState) : XReadArgs :=
  { blockMillis := 100, stream := source, afterId := st.lastId }

/-- The listener goroutine of `NewStreamReceiver` over a finite list of poll
outcomes: `redis.Nil` (timeout) just repeats the loop; any other error logs
`Stream Receive Failed: ...`, breaks, and the queue is closed — permanently:
the remaining outcomes are never consumed; an available log is read via
`xread` strictly after the cursor and the batch processed by `procBatch`.
An exhausted outcome list means the goroutine is still polling (no close). -/
def listenerRun (source : String) (st : LState) : List PollOutcome → List LEv
  | [] => []
  | PollOutcome.timeout :: rest => listenerRun source st rest
  | PollOutcome.brokerErr e :: _ =>
      [LEv.logMsg ("Stream Receive Failed: " ++ e), LEv.closeQ]
  | PollOutcome.logAvail logEntries :: rest =>
      let p := procBatch source st (xread logEntries (pollArgs source st).afterId)
      p.2 ++ listenerRun source p.1 rest

/-- The cursor assignments occurring in a listener trace, in order. -/
def setIds (evs : List LEv) : List String :=
  evs.filterMap fun e => match e with | LEv.setCursor i => some i | _ => none

/-- The messages pushed to the inbound queue in a listener trace, in order. -/
def pushedMsgs (evs : List LEv) : List message :=
  evs.filterMap fun e => match e with | LEv.push m => some m | _ => none

/-- A listener trace restricted to its queue-push and cursor-assign actions. -/
def pushSetEvs (evs : List LEv) : List LEv :=
  evs.filter fun e => match e with
    | LEv.push _ => true
    | LEv.setCursor _ => true
    | _ => false

/-- The successive values of the cursor along a trace: the initial value
followed by each assigned id, all read numerically. -/
def cursorVals (init : String) (evs : List LEv) : List Nat :=
  idNum init :: (setIds evs).map idNum

/-- The inbound HTTP request as `NewStreamSender`'s closure consumes it:
the `Content-Type` header value (`""` when absent), the outcome of
`req.ParseForm` (an error, or the parsed `req.PostForm` as key/values groups
with distinct keys — Go's `url.Values` never holds an empty value slice),
and the outcome of `ioutil.ReadAll(req.Body)` (an error, or the raw body). -/
structure Request where
  contentType : String := ""
  parseFormError : Option String := none
  postForm : List (String × List String) := []
  bodyReadError : Option String := none
  body : String := ""
deriving DecidableEq, Repr

/-- Model of Go `mime.ParseMediaType` restricted to its media-type component:
the part before the first `;`, trimmed and lowercased; it fails with the Go
error text `mime: no media type` when that part is empty — in particular on
the empty string that `Header.Get` yields for an absent `Content-Type`.
Parameter parsing and full token validation are not modelled. -/
def parseMediaType (v : String) : Except String String :=
  let untilSemi := v.data.takeWhile fun c => c ≠ ';'
  let trimmed := ((untilSemi.dropWhile fun c => c = ' ').reverse.dropWhile fun c => c = ' ').reverse
  let base := String.mk (trimmed.map Char.toLower)
  if base = "" then Except.error ("mime: no media type") else Except.ok base

/-- The payload-values computation of `NewStreamSender`'s `send` closure, up to
(but not including) the `XAdd` call.  `jsonValid` stands for Go `json.Valid`.
`ParseForm` errors propagate; with at least one form field, each field's last
value wins (`vals[len(vals)-1:][0]`; the `getLastD ""` default is unreachable
for Go's `url.Values`); otherwise the declared content type selects the single
key (`json` after a JSON validity check, `text`), any other parsed type
failing with `unknown Content-Type`. -/
def streamSendValues (jsonValid : String → Bool) (req : Request) :
    Except String (List (String × String)) :=
  match req.parseFormError with
  | some e => Except.error e
  | none =>
    if req.postForm.length < 1 then
      match parseMediaType req.contentType with
      | Except.error e => Except.error e
      | Except.ok contentType =>
        match req.bodyReadError with
        | some e => Except.error e
        | none =>
          if contentType = ("application/json") then
            if jsonValid req.body then Except.ok [(("json"), req.body)]
            else Except.error ("invalid JSON")
          else if contentType = ("text/plain") then Except.ok [(("text"), req.body)]
          else Except.error ("unknown Content-Type: " ++ contentType)
    else
      Except.ok (req.postForm.map fun kv => (kv.1, kv.2.getLastD ""))

/-- Model of Redis `XADD` with auto id (`ID: "*"`): a fresh id strictly above
every id in the log, rendered in the plain-number form of `idNum`. -/
def autoId (logEntries : List XMessage) : String :=
  toString ((logEntries.map fun e => idNum e.ID).foldr max 0 + 1)

/-- The whole `send` closure of `NewStreamSender` against a broker log: on any
decode failure the log is untouched and the error returned; otherwise exactly
one entry with an auto-generated id is appended and that id is the result. -/
def streamSenderPerform (jsonValid : String → Bool) (logEntries : List XMessage)
    (req : Request) : List XMessage × Except String String :=
  match streamSendValues jsonValid req with
  | Except.error e => (logEntries, Except.error e)
  | Except.ok vals =>
      (logEntries ++ [{ ID := autoId logEntries, Values := vals }],
       Except.ok (autoId logEntries))

/-- The response the `publisher` handler writes (status, `Content-Type`, body);
other headers are not modelled. -/
structure PubResponse where
  status : Nat
  contentType : String
  body : String
deriving DecidableEq, Repr

/-- The `publisher` handler of the complete snapshot, after the sender was
selected: on a send error it logs `Error submitting message: ...` and answers
through `http.Error` (status 500, `text/plain; charset=utf-8`, the message
plus a newline); on success it answers 200 `text/plain` with the result
string.  The request's `Accept` header is passed to expose that this handler
never consults it. -/
def publisherHandle (_accept : String) (sendResult : Except String String) :
    PubResponse × List String :=
  match sendResult with
  | Except.error e =>
      ({ status := 500, contentType := "text/plain; charset=utf-8",
         body := "Error submitting message: " ++ e ++ "\n" },
       ["Error submitting message: " ++ e])
  | Except.ok result =>
      ({ status := 200, contentType := "text/plain", body := result }, [])

/-- The `shutdown` field of a receiver built by `NewStreamReceiver`: the
constructor never assigns the field, so it keeps Go's zero value, nil. -/
def streamReceiverShutdown : Option (Option String) := none

/-- The `shutdown` field of a receiver built by `NewPubSubReceiver` once its
listener goroutine has run its first statements: `pubsub.Close`, whose
eventual error outcome is the argument. -/
def pubsubReceiverShutdown (closeResult : Option String) : Option (Option String) :=
  some closeResult

/-- The padding comment frame the `subscriber` handler writes first: a `:`
comment line with 2048 filler spaces. -/
def paddingLine : String :=
  ": --->" ++ String.mk (List.replicate 2048 (' ')) ++ "<--- padding\n\n"

/-- The Opening writes of the `subscriber` handler: the padding frame, then —
when a client retry time is configured — the `retry:` directive; any write
failure returns (transitions to Closed). -/
def openingWrites (clientRetryTime : String) (st : WState) : WState × Bool :=
  let p := writeOne st paddingLine
  if p.2 then
    if clientRetryTime ≠ "" then writeOne p.1 ("retry: " ++ clientRetryTime ++ "\n\n")
    else (p.1, true)
  else (p.1, false)

/-- Outcome of one whole `subscriber` invocation from the point the deferred
shutdown is installed: the chunks written, the log lines of the deferred
shutdown, whether the handler returned at all, and how many times the
receiver's shutdown operation ran. -/
structure RunResult where
  out : List String
  logs : List String
  terminated : Bool
  shutdownCalls : Nat
deriving DecidableEq, Repr

/-- The deferred block of `subscriber`: `receiver.shutdown` is invoked only
when non-nil (`none` models the nil shutdown a `NewStreamReceiver` leaves);
an error it returns is logged (`messenger shutdown error: ...`) and not
propagated. -/
def deferShutdown : Option (Option String) → Nat × List String
  | none => (0, [])
  | some none => (1, [])
  | some (some e) => (1, ["messenger shutdown error: " ++ e])

/-- One whole `subscriber` invocation past receiver construction: Opening
writes, then the Streaming loop over the given select events; the deferred
shutdown runs exactly when the handler returns (any Closed reason), and not
while it is still blocked (exhausted event list).  `shutdown` is the
receiver's shutdown field, `oracle` the transport's write outcomes. -/
def subscriberRun (clientRetryTime : String) (shutdown : Option (Option String))
    (oracle : List Bool) (events : List WEvent) : RunResult :=
  let st0 : WState := { out := [], oracle := oracle }
  let opening := openingWrites clientRetryTime st0
  if opening.2 then
    let loop := streamLoop opening.1 events
    if loop.2 then
      let d := deferShutdown shutdown
      { out := loop.1.out, logs := d.2, terminated := true, shutdownCalls := d.1 }
    else
      { out := loop.1.out, logs := [], terminated := false, shutdownCalls := 0 }
  else
    let d := deferShutdown shutdown
    { out := opening.1.out, logs := d.2, terminated := true, shutdownCalls := d.1 }

theorem writeAll_infallible (cs : List String) : ∀ o : List String,
    writeAll { out := o, oracle := [] } cs = ({ out := o ++ cs, oracle := [] }, true) := by
  induction cs with
  | nil => intro o; simp [writeAll]
  | cons c cs ih =>
      intro o
      simp [writeAll, writeOne, ih (o ++ [c])]

theorem msgChunks_eq_spec (m : message) : msgChunks m = specEventLines m := by
  unfold msgChunks specEventLines
  by_cases h : m.id = "" <;> simp [h]

theorem pushedMsgs_procBatch (source : String) (b : List XMessage) : ∀ st : LState,
    pushedMsgs (procBatch source st b).2 = b.map (entryToMessage source) := by
  induction b with
  | nil => intro st; rfl
  | cons e es ih =>
      intro st
      simp [procBatch, pushedMsgs, List.filterMap_cons] at ih ⊢
      exact ih { lastId := e.ID }

theorem pushedMsgs_append (a b : List LEv) :
    pushedMsgs (a ++ b) = pushedMsgs a ++ pushedMsgs b := by
  simp [pushedMsgs, List.filterMap_append]

/-- C2: for every GET on a durable source the receiver's cursor initialises to
the `Last-Event-ID` header value, `"0"` when the header is absent (`""`); the
blocking read starts strictly after the cursor, so the messages pushed are
exactly the log entries past the cursor, in order; and in the spec's scenario
(log ids 1,2,3, `Last-Event-ID: 1`) the client receives exactly entries 2 and
3, ascending, each with its own `id:` line. -/
theorem durable_resume_after_cursor :
    initLastId "" = "0"
  ∧ (∀ lastId : String, initLastId lastId = if lastId = "" then "0" else lastId)
  ∧ (∀ (source lastId : String) (logEntries : List XMessage),
      pushedMsgs (listenerRun source { lastId := initLastId lastId }
          [PollOutcome.logAvail logEntries])
        = (xread logEntries (initLastId lastId)).map (entryToMessage source))
  ∧ (∀ (logEntries : List XMessage) (c : String),
      (xread logEntries c).all (fun e => idNum c < idNum e.ID) = true)
  ∧ (streamLoop { out := [], oracle := [] }
      ((pushedMsgs (listenerRun ("s") { lastId := initLastId ("1") }
        [PollOutcome.logAvail
          [ { ID := "1", Values := [("k","a")] },
            { ID := "2", Values := [("k","b")] },
            { ID := "3", Values := [("k","c")] } ] ])).map WEvent.msg)).1.out
      = ["id: 2\n", "event: s\n", "data: k=b\n", "\n",
         "id: 3\n", "event: s\n", "data: k=c\n", "\n"] := by
  refine ⟨rfl, fun lastId => rfl, ?_, ?_, by decide⟩
  · intro source lastId logEntries
    simp [listenerRun, pushedMsgs_append, pushedMsgs_procBatch, pollArgs]
  · intro logEntries c
    simp [xread, List.all_eq_true, List.mem_filter]

/-- C4: an ephemeral broker event with empty payload is skipped and the
listener keeps listening; the inbound queue is closed exactly once, precisely
when the subscription itself reports closure (a `nil` delivery); and a message
with empty text is never written as data — the writer treats it as the
end-of-stream sentinel and terminates, leaving the transport untouched. -/
theorem empty_payload_and_sentinel :
    (∀ (c : String) (rest : List (Option PubSubEvt)),
      pubsubTrace (some { channel := c, payload := "" } :: rest) = pubsubTrace rest)
  ∧ (∀ evts : List (Option PubSubEvt),
      closeCount (pubsubTrace evts) = if evts.any (fun e => e.isNone) then 1 else 0)
  ∧ (∀ (st : WState) (i s : String) (rest : List WEvent),
      streamLoop st (WEvent.msg { id := i, source := s, text := "" } :: rest) = (st, true)) := by
  refine ⟨fun c rest => by simp [pubsubTrace], ?_, fun st i s rest => by simp [streamLoop]⟩
  intro evts
  induction evts with
  | nil => simp [pubsubTrace, closeCount]
  | cons e rest ih =>
      cases e with
      | none => simp [pubsubTrace, closeCount]
      | some evt =>
          by_cases h : evt.payload = ""
          · simpa [pubsubTrace, h] using ih
          · simpa [pubsubTrace, h, closeCount] using ih

/-- C8: every durable-source poll is a blocking read with the fixed 100 ms
timeout issued strictly after the current cursor; a timeout (`redis.Nil`) is
not an error and the poll just repeats; any non-timeout broker error logs,
terminates the listener permanently — the remaining outcomes are never
consumed, no retry — and closes the inbound queue. -/
theorem poll_timeout_and_error :
    (∀ (source : String) (st : LState),
      (pollArgs source st).blockMillis = 100 ∧ (pollArgs source st).afterId = st.lastId)
  ∧ (∀ (logEntries : List XMessage) (c : String),
      ((xread logEntries c).map (fun e => idNum e.ID)).all (fun n => idNum c < n) = true)
  ∧ (∀ (source : String) (st : LState) (rest : List PollOutcome),
      listenerRun source st (PollOutcome.timeout :: rest) = listenerRun source st rest)
  ∧ (∀ (source : String) (st : LState) (e : String) (rest : List PollOutcome),
      listenerRun source st (PollOutcome.brokerErr e :: rest)
        = [LEv.logMsg ("Stream Receive Failed: " ++ e), LEv.closeQ]) := by
  refine ⟨fun source st => ⟨rfl, rfl⟩, ?_, fun source st rest => rfl,
    fun source st e rest => rfl⟩
  intro logEntries c
  simp only [xread, List.all_eq_true, List.mem_map, List.mem_filter, decide_eq_true_eq]
  rintro n ⟨x, ⟨hmem, hlt⟩, rfl⟩
  exact hlt

theorem parseMediaType_app_json :
    parseMediaType ("application/json") = Except.ok ("application/json") := rfl

/-- C6: a durable-source POST whose body yields no form fields is stored by
declared content type: `application/json` is appended raw under the single key
`json` when the body passes the JSON validity check and fails with the
`invalid JSON` error otherwise; `text/plain` is appended under the single key
`text`; any other media type (e.g. `application/xml`) fails with the
`unknown Content-Type` error; in every failure case the log is unchanged. -/
theorem durable_post_content_types (jsonValid : String → Bool)
    (logEntries : List XMessage) (body : String) :
    streamSenderPerform jsonValid logEntries { contentType := "application/json", body := body }
      = (if jsonValid body
         then (logEntries ++ [({ ID := autoId logEntries, Values := [(("json"), body)] } : XMessage)],
               Except.ok (autoId logEntries))
         else (logEntries, Except.error ("invalid JSON")))
  ∧ streamSenderPerform jsonValid logEntries { contentType := "text/plain", body := body }
      = (logEntries ++ [({ ID := autoId logEntries, Values := [(("text"), body)] } : XMessage)],
         Except.ok (autoId logEntries))
  ∧ streamSenderPerform jsonValid logEntries { contentType := "application/xml", body := body }
      = (logEntries, Except.error ("unknown Content-Type: application/xml")) := by
  refine ⟨?_, rfl, rfl⟩
  cases h : jsonValid body <;>
    simp [streamSenderPerform, streamSendValues, parseMediaType_app_json, h]

/-- C7: a durable-source POST with at least one form field appends exactly one
log entry with an auto-generated id, whose field map assigns each key the last
value supplied for it, and the sender returns the broker-assigned id; in
particular `a=1&a=2&b=3` yields one entry with fields `{a: "2", b: "3"}`.
(The nonempty-values hypothesis is Go's `url.Values` invariant, under which
`getLastD ""` is `vals[len(vals)-1]`.) -/
theorem form_post_last_value_wins (jsonValid : String → Bool)
    (logEntries : List XMessage) (req : Request)
    (hform : req.parseFormError = none) (hne : req.postForm ≠ [])
    (hvals : ∀ kv ∈ req.postForm, kv.2 ≠ []) :
    streamSenderPerform jsonValid logEntries req
      = (logEntries
          ++ [({ ID := autoId logEntries,
                 Values := req.postForm.map (fun kv => (kv.1, kv.2.getLastD "")) } : XMessage)],
         Except.ok (autoId logEntries))
  ∧ streamSenderPerform jsonValid []
      { contentType := "", postForm := [(("a"), ["1","2"]), (("b"), ["3"])] }
      = ([{ ID := "1", Values := [(("a"),("2")), (("b"),("3"))] }], Except.ok ("1")) := by
  refine ⟨?_, rfl⟩
  rcases req with ⟨ct, pfe, pf, bre, b⟩
  simp only at hform hne hvals
  subst hform
  cases pf with
  | nil => exact absurd rfl hne
  | cons kv rest => simp [streamSenderPerform, streamSendValues]

theorem form_post_last_value_wins_witness :
    streamSenderPerform (fun _ => true) []
      { contentType := "", postForm := [(("a"), ["1","2"]), (("b"), ["3"])] }
      = ([{ ID := "1", Values := [(("a"),("2")), (("b"),("3"))] }], Except.ok ("1")) :=
  (form_post_last_value_wins (fun _ => true) []
    { contentType := "", postForm := [(("a"), ["1","2"]), (("b"), ["3"])] }
    rfl (by decide) (by decide)).1

/-- C9 counterexample: in the snapshot whose POST path goes through a Sender,
the `publisher` handler never consults the request's `Accept` header — even a
request that negotiated `application/json` is answered with the bare result
string as `text/plain`, not with a `{success, subscribers}` JSON object. -/
theorem publisher_ignores_accept_cex :
    (publisherHandle ("application/json") (Except.ok ("42"))).1.contentType = "text/plain"
  ∧ (publisherHandle ("application/json") (Except.ok ("42"))).1.body = "42"
  ∧ (publisherHandle ("application/json") (Except.ok ("42"))).1.contentType
      ≠ "application/json" :=
  ⟨rfl, rfl, by decide⟩

/-- C9 amended: for every POST whose Sender invocation succeeds the handler
writes a 200 response whose body is the result string as plain text, whatever
the `Accept` header; on any Sender error it responds 500 through `http.Error`
with the error text and logs it. -/
theorem publisher_response (accept result err : String) :
    publisherHandle accept (Except.ok result)
      = ({ status := 200, contentType := "text/plain", body := result }, [])
  ∧ publisherHandle accept (Except.error err)
      = ({ status := 500, contentType := "text/plain; charset=utf-8",
           body := "Error submitting message: " ++ err ++ "\n" },
         ["Error submitting message: " ++ err]) :=
  ⟨rfl, rfl⟩

/-- C10: a durable-source POST without form fields whose `Content-Type` header
is absent (`""`) or not a parseable media type fails with the media-type parse
error before the body is ever read (the outcome is the same for every body and
even for a failing body read), appends nothing to the log, and the request is
answered with a 500 carrying that error. -/
theorem missing_content_type_fails (jsonValid : String → Bool)
    (logEntries : List XMessage) (ct err : String) (br : Option String)
    (body accept : String)
    (h : parseMediaType ct = Except.error err) :
    streamSenderPerform jsonValid logEntries
        { contentType := ct, bodyReadError := br, body := body }
      = (logEntries, Except.error err)
  ∧ (publisherHandle accept
        (streamSenderPerform jsonValid logEntries
          { contentType := ct, bodyReadError := br, body := body }).2).1.status = 500
  ∧ (publisherHandle accept
        (streamSenderPerform jsonValid logEntries
          { contentType := ct, bodyReadError := br, body := body }).2).1.body
      = "Error submitting message: " ++ err ++ "\n" := by
  have hv : streamSendValues jsonValid { contentType := ct, bodyReadError := br, body := body }
      = Except.error err := by
    simp [streamSendValues, h]
  refine ⟨?_, ?_, ?_⟩ <;> simp [streamSenderPerform, hv, publisherHandle]

theorem missing_content_type_fails_witness :
    streamSenderPerform (fun _ => true) []
        { contentType := "", bodyReadError := none, body := "" }
      = ([], Except.error ("mime: no media type"))
  ∧ (publisherHandle ("x")
        (streamSenderPerform (fun _ => true) []
          { contentType := "", bodyReadError := none, body := "" }).2).1.status = 500
  ∧ (publisherHandle ("x")
        (streamSenderPerform (fun _ => true) []
          { contentType := "", bodyReadError := none, body := "" }).2).1.body
      = "Error submitting message: " ++ "mime: no media type" ++ "\n" :=
  missing_content_type_fails (fun _ => true) [] "" "mime: no media type" none "" "x" rfl

theorem deferShutdown_calls (sh : Option (Option String)) :
    (deferShutdown sh).1 = if sh.isSome then 1 else 0 := by
  cases sh with
  | none => rfl
  | some s => cases s with
    | none => rfl
    | some e => rfl

theorem subscriberRun_defer (crt : String) (sh : Option (Option String))
    (o : List Bool) (evs : List WEvent) :
    (subscriberRun crt sh o evs).shutdownCalls
        = (if (subscriberRun crt sh o evs).terminated then (deferShutdown sh).1 else 0)
  ∧ (subscriberRun crt sh o evs).logs
        = (if (subscriberRun crt sh o evs).terminated then (deferShutdown sh).2 else []) := by
  unfold subscriberRun
  dsimp only
  split
  · split
    · simp
    · simp
  · simp

/-- C5 counterexample: `NewStreamReceiver` never assigns the receiver's
`shutdown` field, so for a durable source the writer reaches Closed (here via
client disconnect) without any shutdown invocation — the claim's "exactly
once" fails. -/
theorem shutdown_not_invoked_cex :
    (subscriberRun "" streamReceiverShutdown [] [WEvent.done]).terminated = true
  ∧ (subscriberRun "" streamReceiverShutdown [] [WEvent.done]).shutdownCalls = 0 :=
  ⟨by decide, by decide⟩

/-- C5 amended: whenever the writer reaches its terminal Closed state (for any
reason, including client disconnect) the deferred block runs once: it invokes
the receiver's shutdown operation exactly once when the receiver carries one
and zero times when the field is nil (as `NewStreamReceiver` leaves it),
logging but not propagating a shutdown error; and on client disconnect the
loop exits at once without attempting any further write. -/
theorem shutdown_at_most_once (clientRetryTime : String)
    (shutdown : Option (Option String)) (oracle : List Bool) (events : List WEvent)
    (hterm : (subscriberRun clientRetryTime shutdown oracle events).terminated = true) :
    (subscriberRun clientRetryTime shutdown oracle events).shutdownCalls
        = (if shutdown.isSome then 1 else 0)
  ∧ (∀ e : String, shutdown = some (some e) →
      (subscriberRun clientRetryTime shutdown oracle events).logs
        = ["messenger shutdown error: " ++ e])
  ∧ (∀ (st : WState) (rest : List WEvent),
      streamLoop st (WEvent.done :: rest) = (st, true)) := by
  obtain ⟨hc, hl⟩ := subscriberRun_defer clientRetryTime shutdown oracle events
  rw [hterm] at hc hl
  refine ⟨?_, ?_, fun st rest => rfl⟩
  · rw [hc, if_pos rfl, deferShutdown_calls]
  · intro e he
    subst he
    rw [hl, if_pos rfl]
    rfl

theorem pubsubTrace_all_nonempty (c : String) : ∀ payloads : List String,
    (∀ p ∈ payloads, p ≠ "") →
    pubsubTrace ((payloads.map fun p => some { channel := c, payload := p }) ++ [none])
      = (payloads.map fun p => QEv.push { id := "", source := c, text := p })
          ++ [QEv.closeQ] := by
  intro payloads
  induction payloads with
  | nil => intro _; rfl
  | cons p ps ih =>
      intro h
      have hp : p ≠ "" := h p (List.mem_cons_self p ps)
      simp only [List.map_cons, List.cons_append, pubsubTrace, hp, if_false]
      exact congrArg _ (ih fun q hq => h q (List.mem_cons_of_mem _ hq))

theorem streamLoop_pushes (ms : List message) : ∀ o : List String,
    (∀ m ∈ ms, m.text ≠ "") →
    (streamLoop { out := o, oracle := [] }
        ((ms.map WEvent.msg) ++ [WEvent.msg { id := "", source := "", text := "" }])).1.out
      = o ++ ms.flatMap msgChunks := by
  induction ms with
  | nil => intro o _; simp [streamLoop]
  | cons m ms ih =>
      intro o h
      have hm : m.text ≠ "" := h m (List.mem_cons_self m ms)
      have step : streamLoop { out := o, oracle := [] }
          ((WEvent.msg m :: ms.map WEvent.msg)
            ++ [WEvent.msg { id := "", source := "", text := "" }])
          = streamLoop { out := o ++ msgChunks m, oracle := [] }
              (ms.map WEvent.msg ++ [WEvent.msg { id := "", source := "", text := "" }]) := by
        simp [streamLoop, hm, writeAll_infallible]
      simp only [List.map_cons, List.cons_append] at step ⊢
      rw [step, ih (o ++ msgChunks m) (fun q hq => h q (List.mem_cons_of_mem _ hq))]
      simp [List.flatMap_cons, List.append_assoc]

/-- C1: while Streaming, the writer emits for every non-sentinel message
exactly, in order: an `id:` line iff the message id is non-empty, an `event:`
line equal to the message's source, one `data:` line per newline-delimited
segment of the text, then a blank line (`specEventLines`, worded from the
spec); consequently a client streaming ephemeral source `c` observes, for each
published non-empty payload, one SSE event with `event: c` and `data:` lines
equal to the payload split on newlines, in order. -/
theorem ephemeral_event_framing :
    (∀ (m : message) (o : List String) (rest : List WEvent), m.text ≠ "" →
      streamLoop { out := o, oracle := [] } (WEvent.msg m :: rest)
        = streamLoop { out := o ++ specEventLines m, oracle := [] } rest)
  ∧ (∀ (c : String) (payloads : List String), (∀ p ∈ payloads, p ≠ "") →
      pubsubClientOut ((payloads.map fun p => some { channel := c, payload := p }) ++ [none])
        = payloads.flatMap fun p =>
            ("event: " ++ c ++ "\n")
              :: ((splitNl p).map fun s => "data: " ++ s ++ "\n") ++ ["\n"]) := by
  constructor
  · intro m o rest hm
    simp [streamLoop, hm, writeAll_infallible, msgChunks_eq_spec]
  · intro c payloads h
    unfold pubsubClientOut
    rw [pubsubTrace_all_nonempty c payloads h]
    simp only [List.map_append, List.map_map, List.map_cons, List.map_nil]
    have key := streamLoop_pushes (payloads.map fun p => { id := "", source := c, text := p })
      [] (by
        intro m hm
        obtain ⟨p, hp, rfl⟩ := List.mem_map.mp hm
        exact h p hp)
    simp only [List.map_map] at key
    have key2 : (streamLoop { out := [], oracle := [] }
        (List.map (queueRead ∘ fun p => QEv.push { id := "", source := c, text := p }) payloads
          ++ [queueRead QEv.closeQ])).1.out
        = [] ++ (payloads.map fun p => message.mk "" c p).flatMap msgChunks := key
    rw [key2, List.flatMap_map]
    simp only [List.nil_append]
    apply List.flatMap_congr
    intro p _
    simp [msgChunks]

theorem ephemeral_event_framing_witness :
    streamLoop { out := [], oracle := [] }
        [WEvent.msg { id := "7", source := "C", text := "x" }]
      = streamLoop { out := [] ++ specEventLines { id := "7", source := "C", text := "x" },
                     oracle := [] } []
  ∧ pubsubClientOut [some { channel := "C", payload := "x\ny" }, none]
      = ["x\ny"].flatMap (fun p =>
          ("event: " ++ "C" ++ "\n")
            :: ((splitNl p).map fun s => "data: " ++ s ++ "\n") ++ ["\n"]) :=
  ⟨ephemeral_event_framing.1 { id := "7", source := "C", text := "x" } [] [] (by decide),
   ephemeral_event_framing.2 ("C") ["x\ny"] (by decide)⟩

theorem shutdown_at_most_once_witness :
    (subscriberRun "" (pubsubReceiverShutdown (some ("x"))) [] [WEvent.done]).shutdownCalls
        = (if (pubsubReceiverShutdown (some ("x"))).isSome then 1 else 0)
  ∧ (subscriberRun "" (pubsubReceiverShutdown (some ("x"))) [] [WEvent.done]).logs
        = ["messenger shutdown error: " ++ "x"] :=
  ⟨(shutdown_at_most_once "" (pubsubReceiverShutdown (some ("x"))) [] [WEvent.done]
      (by decide)).1,
   (shutdown_at_most_once "" (pubsubReceiverShutdown (some ("x"))) [] [WEvent.done]
      (by decide)).2.1 ("x") rfl⟩

theorem setIds_append (a b : List LEv) :
    setIds (a ++ b) = setIds a ++ setIds b := by
  simp [setIds, List.filterMap_append]

theorem pushSetEvs_append (a b : List LEv) :
    pushSetEvs (a ++ b) = pushSetEvs a ++ pushSetEvs b := by
  simp [pushSetEvs, List.filter_append]

theorem setIds_procBatch (source : String) (b : List XMessage) : ∀ st : LState,
    setIds (procBatch source st b).2 = b.map (fun e => e.ID) := by
  induction b with
  | nil => intro st; rfl
  | cons e es ih =>
      intro st
      simp [procBatch, setIds, List.filterMap_cons] at ih ⊢
      exact ih { lastId := e.ID }

theorem procBatch_lastId (source : String) (b : List XMessage) : ∀ st : LState,
    (procBatch source st b).1.lastId = (b.map fun e => e.ID).getLastD st.lastId := by
  induction b with
  | nil => intro st; rfl
  | cons e es ih =>
      intro st
      simp only [procBatch, List.map_cons, List.getLastD_cons]
      exact ih { lastId := e.ID }

theorem pushSet_procBatch (source : String) (b : List XMessage) : ∀ st : LState,
    pushSetEvs (procBatch source st b).2
      = (pushedMsgs (procBatch source st b).2).flatMap
          (fun m => [LEv.push m, LEv.setCursor m.id]) := by
  induction b with
  | nil => intro st; rfl
  | cons e es ih =>
      intro st
      simp [procBatch, pushSetEvs, pushedMsgs, List.filter_cons, List.filterMap_cons,
        entryToMessage, List.flatMap_cons] at ih ⊢
      exact ih { lastId := e.ID }

theorem pushSet_listenerRun (source : String) : ∀ (polls : List PollOutcome) (st : LState),
    pushSetEvs (listenerRun source st polls)
      = (pushedMsgs (listenerRun source st polls)).flatMap
          (fun m => [LEv.push m, LEv.setCursor m.id]) := by
  intro polls
  induction polls with
  | nil => intro st; rfl
  | cons p rest ih =>
      intro st
      cases p with
      | timeout => simpa [listenerRun] using ih st
      | brokerErr e =>
          simp [listenerRun, pushSetEvs, pushedMsgs, List.filter_cons, List.filterMap_cons]
      | logAvail L =>
          simp only [listenerRun]
          simp [pushSetEvs_append, pushedMsgs_append, List.flatMap_append,
            pushSet_procBatch, ih]

theorem chain_xread (logEntries : List XMessage) (c : String)
    (hsort : List.Pairwise (fun a b : XMessage => idNum a.ID < idNum b.ID) logEntries) :
    List.Chain' (· ≤ ·) (idNum c :: ((xread logEntries c).map fun e => idNum e.ID)) := by
  have hsub : List.Pairwise (fun a b : XMessage => idNum a.ID < idNum b.ID)
      (xread logEntries c) :=
    List.Pairwise.sublist (List.filter_sublist _) hsort
  have hpair : List.Pairwise (fun a b : Nat => a < b)
      ((xread logEntries c).map fun e => idNum e.ID) :=
    List.pairwise_map.mpr hsub
  have hchain : List.Chain' (fun a b : Nat => a < b)
      ((xread logEntries c).map fun e => idNum e.ID) :=
    List.chain'_iff_pairwise.mpr hpair
  apply List.chain'_cons'.mpr
  refine ⟨?_, hchain.imp fun a b hab => le_of_lt hab⟩
  intro y hy
  cases hx : xread logEntries c with
  | nil => simp [hx] at hy
  | cons e es =>
      rw [hx] at hy
      simp at hy
      have hmem : e ∈ xread logEntries c := by
        rw [hx]; exact List.mem_cons_self e es
      unfold xread at hmem
      have hp := List.of_mem_filter hmem
      subst hy
      exact le_of_lt (by simpa using hp)

theorem getLast?_cursorSeq : ∀ (ids : List String) (c : String),
    (idNum c :: ids.map idNum).getLast? = some (idNum (ids.getLastD c)) := by
  intro ids
  induction ids with
  | nil => intro c; rfl
  | cons x xs ih =>
      intro c
      simp only [List.map_cons, List.getLast?_cons_cons, List.getLastD_cons]
      exact ih x

theorem cursor_monotone_run (source : String) : ∀ (polls : List PollOutcome) (st : LState),
    (∀ L, PollOutcome.logAvail L ∈ polls →
      List.Pairwise (fun a b : XMessage => idNum a.ID < idNum b.ID) L) →
    List.Chain' (· ≤ ·) (cursorVals st.lastId (listenerRun source st polls)) := by
  intro polls
  induction polls with
  | nil =>
      intro st _
      simp [listenerRun, cursorVals, setIds]
  | cons p rest ih =>
      intro st h
      cases p with
      | timeout =>
          simpa [listenerRun] using ih st fun L hL => h L (List.mem_cons_of_mem _ hL)
      | brokerErr e =>
          simp [listenerRun, cursorVals, setIds, List.filterMap_cons]
      | logAvail L =>
          have hL := h L (List.mem_cons_self _ _)
          have hrest := ih (procBatch source st (xread L st.lastId)).1
            fun L' hL' => h L' (List.mem_cons_of_mem _ hL')
          have hbatch := chain_xread L st.lastId hL
          simp only [listenerRun, pollArgs]
          rw [cursorVals, setIds_append, setIds_procBatch, List.map_append,
            ← List.cons_append]
          apply List.chain'_append.mpr
          refine ⟨?_, ?_, ?_⟩
          · simpa [List.map_map, Function.comp] using hbatch
          · exact (List.Chain'.tail hrest)
          · intro x hx y hy
            rw [List.map_map] at hx
            have hx' : x ∈ (idNum st.lastId
                :: ((xread L st.lastId).map fun e => e.ID).map idNum).getLast? := by
              simpa [List.map_map, Function.comp] using hx
            rw [getLast?_cursorSeq] at hx'
            simp at hx'
            subst hx'
            have hhead := (List.chain'_cons'.mp hrest).1
            rw [cursorVals] at hrest
            have hlast : (procBatch source st (xread L st.lastId)).1.lastId
                = ((xread L st.lastId).map fun e => e.ID).getLastD st.lastId :=
              procBatch_lastId source _ st
            have := (List.chain'_cons'.mp hrest).1 y ?_
            · simpa [cursorVals, hlast] using this
            · simpa [cursorVals] using hy

/-- C3: in every durable-source listener trace, each cursor assignment
immediately follows the push of the entry carrying that id — the trace
restricted to push/assign actions is exactly push-then-assign pairs, so the
cursor never skips ahead of a pending push; and, for logs whose entries carry
strictly increasing ids, the successive cursor values over the receiver's
whole lifetime form a non-decreasing chain (re-reads past the cursor can never
regress it). -/
theorem cursor_advance_after_push (source : String) (st : LState)
    (polls : List PollOutcome)
    (hsort : ∀ L, PollOutcome.logAvail L ∈ polls →
      List.Pairwise (fun a b : XMessage => idNum a.ID < idNum b.ID) L) :
    pushSetEvs (listenerRun source st polls)
      = (pushedMsgs (listenerRun source st polls)).flatMap
          (fun m => [LEv.push m, LEv.setCursor m.id])
  ∧ List.Chain' (· ≤ ·) (cursorVals st.lastId (listenerRun source st polls)) :=
  ⟨pushSet_listenerRun source polls st, cursor_monotone_run source polls st hsort⟩

theorem cursor_advance_after_push_witness :
    pushSetEvs (listenerRun ("s") { lastId := "0" }
        [PollOutcome.logAvail
          [{ ID := "1", Values := [(("k"),("v"))] }, { ID := "2", Values := [] }],
         PollOutcome.timeout])
      = (pushedMsgs (listenerRun ("s") { lastId := "0" }
          [PollOutcome.logAvail
            [{ ID := "1", Values := [(("k"),("v"))] }, { ID := "2", Values := [] }],
           PollOutcome.timeout])).flatMap
          (fun m => [LEv.push m, LEv.setCursor m.id])
  ∧ List.Chain' (· ≤ ·) (cursorVals "0" (listenerRun ("s") { lastId := "0" }
      [PollOutcome.logAvail
        [{ ID := "1", Values := [(("k"),("v"))] }, { ID := "2", Values := [] }],
       PollOutcome.timeout])) :=
  cursor_advance_after_push ("s") { lastId := "0" }
    [PollOutcome.logAvail
      [{ ID := "1", Values := [(("k"),("v"))] }, { ID := "2", Values := [] }],
     PollOutcome.timeout]
    (by intro L hL; simp at hL; subst hL; decide)

end Sseredis
